import Mathlib

/-!
Verification of the consumer-testapp-lanek specification against the code.

The frontend (Next.js/TypeScript) is embedded shallowly: pure TypeScript
functions become Lean functions over `String`, `ℚ` (for JS numbers) and
`Option` (for nullable values / thrown parses).  The Flask backend is not
part of the visible sources; where a claim concerns backend behaviour the
relevant operation is modelled from the specification and marked as such
in its doc comment.
-/

namespace ConsumerApp

/-! ## JavaScript string primitives

JS strings are sequences of UTF-16 code units; `String.length`, regex
quantifiers and the dot metacharacter all count code units.  We keep Lean
`String` (a sequence of scalar values) and model the code-unit view
explicitly: a scalar value below `0x10000` is one unit, anything above is
a surrogate pair, i.e. two units. -/

/-- Number of UTF-16 code units of a character, as JS `length` counts it. -/
def utf16Weight (c : Char) : Nat :=
  if c.toNat < 0x10000 then 1 else 2

/-- JS `String.prototype.length`: the number of UTF-16 code units. -/
def utf16Len (s : String) : Nat :=
  (s.data.map utf16Weight).sum

/-- Line terminators, the characters the JS regex dot does not match:
LF, CR, LINE SEPARATOR and PARAGRAPH SEPARATOR. -/
def isLineTerm (c : Char) : Bool :=
  c = '\n' || c = '\r' || c.toNat = 0x2028 || c.toNat = 0x2029

/-- ASCII lowercase letter, the JS character class `[a-z]`. -/
def isLowerAscii (c : Char) : Bool :=
  'a' ≤ c && c ≤ 'z'

/-- ASCII uppercase letter, the JS character class `[A-Z]`. -/
def isUpperAscii (c : Char) : Bool :=
  'A' ≤ c && c ≤ 'Z'

/-- ASCII digit, the JS character class `\d`. -/
def isDigitAscii (c : Char) : Bool :=
  '0' ≤ c && c ≤ '9'

/-- The special characters accepted by the password rules: `[@$!%*?&]`. -/
def isSpecialChar (c : Char) : Bool :=
  c = '@' || c = '$' || c = '!' || c = '%' || c = '*' || c = '?' || c = '&'

/-! ## C1 — analytics cards percentage change

From `src/frontend/src/components/ui/PasswordStrengthIndicator.tsx`
(the file also holds the `AnalyticsCards` component): -/

/-- The `calculatePercentageChange` arrow function inside `AnalyticsCards`:
`if (previous === 0) return current > 0 ? 100 : 0;`
`return ((current - previous) / previous) * 100;`
JS numbers are modelled as rationals. -/
def calculatePercentageChange (current previous : ℚ) : ℚ :=
  if previous = 0 then (if 0 < current then 100 else 0)
  else (current - previous) / previous * 100

/-- What the Current Month card renders for the month-over-month change:
an increase arrow with the percentage, a decrease arrow with its absolute
value, or the literal text No change. -/
inductive MonthChangeDisplay : Type where
  | increase (pct : ℚ)
  | decrease (pct : ℚ)
  | noChange
deriving DecidableEq

/-- The rendering logic of the Current Month card in `AnalyticsCards`:
`isIncreased = monthlyChange > 0` shows `monthlyChange.toFixed(1)%`,
`isDecreased = monthlyChange < 0` shows `Math.abs(monthlyChange).toFixed(1)%`,
and `monthlyChange === 0` shows the text No change.  The numeric value is
kept exact here; the component formats it with one decimal. -/
def currentMonthCard (current previous : ℚ) : MonthChangeDisplay :=
  let m := calculatePercentageChange current previous
  if 0 < m then .increase m
  else if m < 0 then .decrease (-m)
  else .noChange

/-- The closed set of consumption types: `z.enum(['electricity', 'water',
'gas'])` on the client and the fixed set of §3 of the spec. -/
inductive CType : Type where
  | electricity
  | water
  | gas
deriving DecidableEq

/-! ## C2 — consumption creation form validation

From `consumptionSchema` in the consumption form component
(`src/unnamed/part_010`).  The zod object parse succeeds exactly when all
four field schemas succeed. -/

/-- One submitted consumption form, after the JS-level coercions the schema
performs:
`date` is `some t` when `new Date(date)` yields a valid timestamp `t`
(milliseconds) and `none` when the string is empty or unparseable (an
invalid date compares false against anything, and the empty string also
fails the `min(1)` check — both reject);
`value` is `some v` when `Number(value)` is the number `v` and the string
is non-empty, `none` when the string is empty (fails `min(1)`) or not
numeric (`isNaN`);
`ctype` is `some` of the enum value or `none` when `z.enum` fails;
`notes` is the optional free text. -/
structure ConsumptionFormInput : Type where
  date : Option Int
  value : Option ℚ
  ctype : Option CType
  notes : Option String
deriving DecidableEq

/-- The zod parse of `consumptionSchema`: `true` exactly when every field
schema succeeds.  The date refinement is
`selectedDate <= today` where `today` has been set to the end of the
current day (`setHours(23, 59, 59, 999)`); `endOfToday` is that timestamp.
The value refinement is `!isNaN(Number(val)) && Number(val) > 0`, the type
must be one of the three enum members, and `notes` is optional with
`max(500)` (UTF-16 length). -/
def consumptionAccepts (endOfToday : Int) (f : ConsumptionFormInput) : Bool :=
  (match f.date with
   | some d => d ≤ endOfToday
   | none => false) &&
  (match f.value with
   | some v => 0 < v
   | none => false) &&
  f.ctype.isSome &&
  (match f.notes with
   | some n => utf16Len n ≤ 500
   | none => true)

/-! ## C6 — registration form schema

From `registrationSchema` in the registration types module (packed into
`src/frontend/__tests__/components/AnalyticsCards.test.tsx`, lines
488-524).  Each zod string field runs all its checks; the object parse
succeeds exactly when all of them pass and the cross-field refinement
`password === confirm_password` holds. -/

/-- Username characters: the JS character class `[a-zA-Z0-9_]`. -/
def isUsernameChar (c : Char) : Bool :=
  isLowerAscii c || isUpperAscii c || isDigitAscii c || c = '_'

/-- Local-part characters of the zod email pattern:
the class written with letters, digits, underscore, apostrophe, plus,
hyphen and dot. -/
def isEmailLocalChar (c : Char) : Bool :=
  isLowerAscii c || isUpperAscii c || isDigitAscii c || c = '_' ||
    c.toNat = 39 || c = '+' || c = '-' || c = '.'

/-- Characters allowed as the last character of the email local part:
the class with letters, digits, underscore, plus and hyphen (no dot, no
apostrophe). -/
def isEmailLocalEndChar (c : Char) : Bool :=
  isLowerAscii c || isUpperAscii c || isDigitAscii c || c = '_' ||
    c = '+' || c = '-'

/-- ASCII letter. -/
def isAlphaAscii (c : Char) : Bool :=
  isLowerAscii c || isUpperAscii c

/-- ASCII letter or digit. -/
def isAlnumAscii (c : Char) : Bool :=
  isAlphaAscii c || isDigitAscii c

/-- Two consecutive dots somewhere in the character list (the negative
lookahead on double dots in the zod email pattern). -/
def hasDoubleDot : List Char → Bool
  | c1 :: c2 :: rest => (c1 = '.' && c2 = '.') || hasDoubleDot (c2 :: rest)
  | _ => false

/-- One non-final domain label of the email pattern: a letter or digit
followed by letters, digits or hyphens. -/
def isDomainLabel : List Char → Bool
  | [] => false
  | c :: rest => isAlnumAscii c && rest.all (fun d => isAlnumAscii d || d = '-')

/-- The email format check of `z.string().email()` (the zod 3.23 pattern):
no leading dot, no double dot, a non-empty local part over the local
character class ending in a restricted character, a single at sign, and one
or more labels followed by an alphabetic top-level domain of length at
least two. -/
def zodEmailValid (s : String) : Bool :=
  let cs := s.data
  match cs.splitOn '@' with
  | [localPart, domain] =>
      (match cs with
       | c :: _ => !(c = '.')
       | [] => false) &&
      !hasDoubleDot cs &&
      (match localPart with
       | [] => false
       | _ => localPart.all isEmailLocalChar &&
              (match localPart.getLast? with
               | some c => isEmailLocalEndChar c
               | none => false)) &&
      (match (domain.splitOn '.').reverse with
       | tld :: labels =>
           2 ≤ tld.length && tld.all isAlphaAscii &&
           labels ≠ [] && labels.all isDomainLabel
       | [] => false)
  | _ => false

/-- The password pattern of the registration schema, as the JS engine
interprets it.  The pattern anchors at the start only: four lookaheads
(`.*` does not cross a line terminator, so each required character must
occur before the first line terminator) followed by a single character of
the class with letters, digits and the special characters — only the FIRST
character of the password is constrained by that class. -/
def passwordRegexTest (p : String) : Bool :=
  let firstLine := p.data.takeWhile (fun c => !isLineTerm c)
  firstLine.any isLowerAscii &&
  firstLine.any isUpperAscii &&
  firstLine.any isDigitAscii &&
  firstLine.any isSpecialChar &&
  (match p.data with
   | c :: _ => isLowerAscii c || isUpperAscii c || isDigitAscii c || isSpecialChar c
   | [] => false)

/-- A submitted registration form: the four raw string fields. -/
structure RegistrationInput : Type where
  username : String
  email : String
  password : String
  confirm_password : String
deriving DecidableEq

/-- ASCII lowercasing of one character. -/
def asciiLower (c : Char) : Char :=
  if isUpperAscii c then Char.ofNat (c.toNat + 32) else c

/-- The `toLowerCase` transform of the email field.  An email accepted by
the format check is pure ASCII, so ASCII lowering coincides with the JS
Unicode lowercasing on every string that can reach the transform. -/
def lowerStr (s : String) : String :=
  ⟨s.data.map asciiLower⟩

/-- The output of a successful registration parse.  The only transform in
the schema is `.toLowerCase()` on the email, applied after its checks; all
other fields pass through. -/
structure RegistrationOutput : Type where
  username : String
  email : String
  password : String
  confirm_password : String
deriving DecidableEq

/-- The username field checks: `min(1)`, `min(3)`, `max(30)` and the
anchored regex over `[a-zA-Z0-9_]`. -/
def usernameFieldOk (u : String) : Bool :=
  1 ≤ utf16Len u && 3 ≤ utf16Len u && utf16Len u ≤ 30 &&
  u.data ≠ [] && u.data.all isUsernameChar

/-- The email field checks: `min(1)`, `email()` and `max(100)`. -/
def emailFieldOk (e : String) : Bool :=
  1 ≤ utf16Len e && zodEmailValid e && utf16Len e ≤ 100

/-- The password field checks: `min(1)`, `min(8)`, `max(128)` and the
password pattern. -/
def passwordFieldOk (p : String) : Bool :=
  1 ≤ utf16Len p && 8 ≤ utf16Len p && utf16Len p ≤ 128 && passwordRegexTest p

/-- The zod parse of `registrationSchema`: all four field schemas plus the
equality refinement; on success the email is lowercased. -/
def registrationParse (i : RegistrationInput) : Option RegistrationOutput :=
  if usernameFieldOk i.username && emailFieldOk i.email &&
     passwordFieldOk i.password && 1 ≤ utf16Len i.confirm_password &&
     i.password = i.confirm_password then
    some ⟨i.username, lowerStr i.email, i.password, i.confirm_password⟩
  else
    none

/-- Whether the registration parse succeeds. -/
def registrationAccepts (i : RegistrationInput) : Bool :=
  (registrationParse i).isSome

/-- The acceptance condition exactly as claim C6 words it (spec side of the
comparison): username of 3-30 characters over letters, digits and
underscores; syntactically valid email of at most 100 characters; password
of 8-128 characters containing at least one lowercase letter, one
uppercase letter, one digit and one special character anywhere in the
string; and a confirmation equal to the password. -/
def registrationClaimAccepts (i : RegistrationInput) : Bool :=
  3 ≤ utf16Len i.username && utf16Len i.username ≤ 30 &&
  i.username.data.all isUsernameChar &&
  zodEmailValid i.email && utf16Len i.email ≤ 100 &&
  8 ≤ utf16Len i.password && utf16Len i.password ≤ 128 &&
  i.password.data.any isLowerAscii && i.password.data.any isUpperAscii &&
  i.password.data.any isDigitAscii && i.password.data.any isSpecialChar &&
  i.password = i.confirm_password

/-! ## C10 — password strength classifier

From `calculatePasswordStrength` in the registration types module
(packed into the same test file, lines 625-681). -/

/-- The four strength levels. -/
inductive PasswordLevel : Type where
  | weak
  | fair
  | good
  | strong
deriving DecidableEq

/-- The structure the classifier returns. -/
structure StrengthResult : Type where
  level : PasswordLevel
  label : String
  color : String
  requirements : List String
deriving DecidableEq

/-- Length of the longest run of consecutive non-line-terminator
characters, counted in UTF-16 units — this is what the JS pattern `.{8,}`
can match (the dot does not cross line terminators and counts code
units). -/
def maxNonTermRun (s : String) : Nat :=
  let step : Nat × Nat → Char → Nat × Nat := fun bc c =>
    if isLineTerm c then (max bc.1 bc.2, 0) else (bc.1, bc.2 + utf16Weight c)
  let bc := s.data.foldl step (0, 0)
  max bc.1 bc.2

/-- The five requirement tests of `calculatePasswordStrength`, in source
order, each with the text shown in the checklist. -/
def strengthRequirements : List ((String → Bool) × String) :=
  [ (fun p => 8 ≤ maxNonTermRun p, "At least 8 characters")
  , (fun p => p.data.any isLowerAscii, "Lowercase letter")
  , (fun p => p.data.any isUpperAscii, "Uppercase letter")
  , (fun p => p.data.any isDigitAscii, "Number")
  , (fun p => p.data.any isSpecialChar, "Special character") ]

/-- The `calculatePasswordStrength` function: filter the met and unmet
requirements, score by the number met, and branch on the score (the empty
password has score zero, so the extra length test in the first branch
changes nothing). -/
def calculatePasswordStrength (p : String) : StrengthResult :=
  let unmet := (strengthRequirements.filter (fun r => !r.1 p)).map (·.2)
  let score := (strengthRequirements.filter (fun r => r.1 p)).length
  if score = 0 || utf16Len p = 0 then ⟨.weak, "Very Weak", "text-red-600", unmet⟩
  else if score = 1 then ⟨.weak, "Weak", "text-red-500", unmet⟩
  else if score = 2 then ⟨.fair, "Fair", "text-orange-500", unmet⟩
  else if score = 3 then ⟨.good, "Good", "text-yellow-500", unmet⟩
  else if score = 4 then ⟨.good, "Good", "text-blue-500", unmet⟩
  else ⟨.strong, "Strong", "text-green-600", []⟩

/-! ## C3, C8, C9 — client session holder

From `src/frontend/src/context/AuthContext.tsx` and the axios response
interceptor in `src/frontend/src/lib/api.ts`.  The browser localStorage
with its three keys and the React auth state are modelled explicitly; a
stored value is an `Option String` (`none` when the key is absent). -/

/-- The `UserInfo` interface of `src/frontend/src/lib/api.ts`. -/
structure UserInfo : Type where
  id : Nat
  username : String
  email : String
  is_active : Bool
  created_at : String
deriving DecidableEq

/-- The `AuthState` interface of the auth context. -/
structure AuthState : Type where
  isAuthenticated : Bool
  user : Option UserInfo
  accessToken : Option String
  refreshToken : Option String
  isLoading : Bool
deriving DecidableEq

/-- The three localStorage slots under the keys `auth_access_token`,
`auth_refresh_token` and `auth_user_info`. -/
structure AuthStorage : Type where
  access : Option String
  refresh : Option String
  userInfo : Option String
deriving DecidableEq

/-- The whole client session: React state plus persisted storage. -/
structure ClientState : Type where
  auth : AuthState
  storage : AuthStorage
deriving DecidableEq

/-- JS truthiness of `localStorage.getItem(...)`: `null` and the empty
string are falsy, every other string is truthy. -/
def truthyS : Option String → Bool
  | none => false
  | some s => s ≠ ""

/-- The `clearAuthStorage` helper: removes the three keys. -/
def clearAuthStorage (_st : AuthStorage) : AuthStorage :=
  ⟨none, none, none⟩

/-- The unauthenticated state that `logout` installs (and that
`loadAuthState` leaves behind after finishing the initial load). -/
def signedOutAuth : AuthState :=
  ⟨false, none, none, none, false⟩

/-- The `logout` function: `clearAuthStorage()` followed by setting the
unauthenticated state. -/
def logout (cs : ClientState) : ClientState :=
  ⟨signedOutAuth, clearAuthStorage cs.storage⟩

/-- The response part of an axios error, when the server answered. -/
structure AxiosResponsePart : Type where
  status : Nat
  data : String
deriving DecidableEq

/-- An axios error as the interceptor receives it. -/
structure AxiosError : Type where
  message : String
  response : Option AxiosResponsePart
deriving DecidableEq

/-- The object the response interceptor rejects with:
`{ message: error.message, status: error.response?.status,
data: error.response?.data }`. -/
structure TransformedApiError : Type where
  message : String
  status : Option Nat
  data : Option String
deriving DecidableEq

/-- The error branch of `apiClient.interceptors.response.use` in
`src/frontend/src/lib/api.ts`: builds the transformed error and rejects
with it.  It reads nothing from and writes nothing to the session. -/
def onResponseError (e : AxiosError) (cs : ClientState) :
    TransformedApiError × ClientState :=
  (⟨e.message, e.response.map (·.status), e.response.map (·.data)⟩, cs)

/-- The `loadAuthState` closure run on mount: read the three keys; when
all three are truthy, `JSON.parse` the user info — on success install the
authenticated state, on a parse exception clear the storage and finish
unauthenticated; when some key is missing only the loading flag changes.
`parseUser` stands for `JSON.parse` (`none` models a thrown
`SyntaxError`). -/
def loadAuthState (parseUser : String → Option UserInfo)
    (st : AuthStorage) : AuthState × AuthStorage :=
  if truthyS st.access && truthyS st.refresh && truthyS st.userInfo then
    match st.userInfo with
    | some uStr =>
        (match parseUser uStr with
         | some u => (⟨true, some u, st.access, st.refresh, false⟩, st)
         | none => (signedOutAuth, clearAuthStorage st))
    | none => (signedOutAuth, st)
  else
    (signedOutAuth, st)

/-- The `refreshAccessToken` function: the body only warns that refresh is
not implemented and returns `false`; no request is issued and neither the
state nor the storage is touched (the catch branch is unreachable because
`console.warn` does not throw).  The third component lists the backend
calls performed. -/
def refreshAccessToken (cs : ClientState) : Bool × ClientState × List String :=
  (false, cs, [])

/-! ## C7 — bearer token placement

From `consumptionApi.create` and `consumptionApi.list` in
`src/frontend/src/lib/api.ts`. -/

/-- HTTP methods used by the client. -/
inductive HttpMethod : Type where
  | get
  | post
deriving DecidableEq

/-- The `ConsumptionCreateRequest` payload: `date` (ISO string), `value`,
`type`, optional `notes`.  There is no token field in this type. -/
structure ConsumptionCreateBody : Type where
  date : String
  value : ℚ
  ctype : CType
  notes : Option String
deriving DecidableEq

/-- An outgoing HTTP request as the axios client assembles it: method,
path, query parameters, per-request headers and optional JSON body. -/
structure HttpRequest : Type where
  method : HttpMethod
  path : String
  queryParams : List (String × String)
  headers : List (String × String)
  body : Option ConsumptionCreateBody
deriving DecidableEq

/-- `consumptionApi.create`: POST to `/api/consumption` with the payload
as the body and the config `headers: { Authorization: Bearer <token> }`. -/
def consumptionCreateRequest (data : ConsumptionCreateBody)
    (token : String) : HttpRequest :=
  ⟨.post, "/api/consumption", [], [("Authorization", "Bearer " ++ token)],
    some data⟩

/-- The `ConsumptionListParams` query options. -/
structure ConsumptionListParams : Type where
  page : Option Nat
  per_page : Option Nat
deriving DecidableEq

/-- One conditional append to the `URLSearchParams`: the parameter is
added only when truthy (absent and zero are both skipped). -/
def pageParam (key : String) (po : Option Nat) : List (String × String) :=
  match po with
  | some p => if p ≠ 0 then [(key, toString p)] else []
  | none => []

/-- `consumptionApi.list`: GET `/api/consumption` with a query string
assembled from `page` and `per_page` (each appended only when truthy, so a
zero is skipped like an absent value) and the same Authorization header. -/
def consumptionListRequest (params : ConsumptionListParams)
    (token : String) : HttpRequest :=
  ⟨.get, "/api/consumption",
    pageParam "page" params.page ++ pageParam "per_page" params.per_page,
    [("Authorization", "Bearer " ++ token)], none⟩

/-! ## C4, C5 — tenant-scoped repository and analytics aggregator

The Flask backend implementing these is not among the visible sources
(only the frontend, its tests and the documentation are), so the two
components are modelled from the specification, §4.3 and §4.4. -/

/-- Modelled from the spec: a persisted `ConsumptionRecord` row (§3) of
the backend, which is absent from the sources.  The consumption date is
kept as calendar year, month and day; `createdAt` is the creation
timestamp used as a pagination tie-breaker. -/
structure BackendRecord : Type where
  id : Nat
  owner : Nat
  year : Nat
  month : Nat
  day : Nat
  ctype : CType
  value : ℚ
  createdAt : Nat
deriving DecidableEq

/-- Modelled from the spec: the payload of `POST /consumption`, including
a crafted `owner` field a malicious client may supply (§4.3 requires it to
be ignored). -/
structure CreatePayload : Type where
  year : Nat
  month : Nat
  day : Nat
  ctype : CType
  value : ℚ
  claimedOwner : Option Nat
deriving DecidableEq

/-- Modelled from the spec: `create(tenantContext, record)` of the
tenant-scoped repository (§4.3), absent from the sources.  The owner field
is always set from the tenant context, never from client input; the write
is a single insert. -/
def createRecord (tenant : Nat) (p : CreatePayload)
    (db : List BackendRecord) : BackendRecord × List BackendRecord :=
  let r : BackendRecord :=
    ⟨db.length, tenant, p.year, p.month, p.day, p.ctype, p.value, db.length⟩
  (r, db ++ [r])

/-- Ordering for listing: newest consumption date first, ties broken by
newest creation timestamp (§4.3). -/
def newestFirst (a b : BackendRecord) : Bool :=
  decide (b.year < a.year ∨ (b.year = a.year ∧
    (b.month < a.month ∨ (b.month = a.month ∧
      (b.day < a.day ∨ (b.day = a.day ∧ b.createdAt ≤ a.createdAt))))))

/-- Modelled from the spec: `list(tenantContext, page, pageSize)` of the
tenant-scoped repository (§4.3), absent from the sources.  Page and page
size are validated (page at least 1, page size 1-100); every query filters
on equality of the owner with the tenant identifier from the context, and
the page is cut from the ordered, filtered rows. -/
def listRecords (tenant : Nat) (page pageSize : Nat)
    (db : List BackendRecord) : Option (List BackendRecord) :=
  if page < 1 || pageSize < 1 || 100 < pageSize then none
  else
    some ((((db.filter (fun r => decide (r.owner = tenant))).mergeSort
      newestFirst).drop ((page - 1) * pageSize)).take pageSize)

/-- The month key of a record: the `(year, month)` of its consumption
date. -/
def ymKey (r : BackendRecord) : Nat × Nat :=
  (r.year, r.month)

/-- Calendar order on `(year, month)` buckets. -/
def ymLe (a b : Nat × Nat) : Bool :=
  decide (a.1 < b.1 ∨ (a.1 = b.1 ∧ a.2 ≤ b.2))

/-- Sum of the values of the records of one type. -/
def typeSum (t : CType) (rs : List BackendRecord) : ℚ :=
  ((rs.filter (fun r => decide (r.ctype = t))).map (·.value)).sum

/-- Modelled from the spec: one `MonthlyAggregate` bucket (§3, §4.4) with
an explicit subtotal for each of the three fixed types (a type missing
from the bucket contributes 0, not absence) and the bucket total. -/
structure MonthlyBucket : Type where
  ym : Nat × Nat
  electricity : ℚ
  water : ℚ
  gas : ℚ
  total : ℚ
deriving DecidableEq

/-- The bucket of one `(year, month)` key over a fixed record set. -/
def bucketFor (records : List BackendRecord) (k : Nat × Nat) : MonthlyBucket :=
  let rs := records.filter (fun r => decide (ymKey r = k))
  ⟨k, typeSum .electricity rs, typeSum .water rs, typeSum .gas rs,
    (rs.map (·.value)).sum⟩

/-- The distinct month keys of a record set, sorted ascending by calendar
month. -/
def monthKeys (records : List BackendRecord) : List (Nat × Nat) :=
  ((records.map ymKey).dedup).mergeSort ymLe

/-- Modelled from the spec: the `AnalyticsSummary` of §4.4. -/
structure AnalyticsSummary : Type where
  total_consumption : ℚ
  total_records : Nat
  monthly_data : List MonthlyBucket
  average_monthly : ℚ
  current_month_total : ℚ
  last_month_total : ℚ
  by_electricity : ℚ
  by_water : ℚ
  by_gas : ℚ
deriving DecidableEq

/-- The calendar month immediately preceding a month. -/
def prevYm : Nat × Nat → Nat × Nat
  | (y, 1) => (y - 1, 12)
  | (y, m) => (y, m - 1)

/-- Modelled from the spec: `summarize(tenantContext)` of the analytics
aggregator (§4.4), absent from the sources.  All records of the tenant are
fetched through the tenant filter, then: total and count over all records,
monthly buckets grouped by `(year, month)` and sorted ascending, average
over `max 1 #buckets`, current and previous calendar month totals for the
given notion of now, and per-type sums over the whole record set. -/
def summarize (tenant : Nat) (db : List BackendRecord)
    (now : Nat × Nat) : AnalyticsSummary :=
  let records := db.filter (fun r => decide (r.owner = tenant))
  { total_consumption := (records.map (·.value)).sum
  , total_records := records.length
  , monthly_data := (monthKeys records).map (bucketFor records)
  , average_monthly :=
      (records.map (·.value)).sum / (max 1 (monthKeys records).length : ℚ)
  , current_month_total :=
      ((records.filter (fun r => decide (ymKey r = now))).map (·.value)).sum
  , last_month_total :=
      ((records.filter (fun r => decide (ymKey r = prevYm now))).map (·.value)).sum
  , by_electricity := typeSum .electricity records
  , by_water := typeSum .water records
  , by_gas := typeSum .gas records }

/-! ## Concrete instances used as test points -/

/-- A registration input meeting every condition of claim C6 whose
password starts with a hash sign — a character outside the class the
password pattern requires at position zero. -/
def regInputHashPwd : RegistrationInput :=
  ⟨"alice_1", "alice@example.com", "#Aa1@aaa", "#Aa1@aaa"⟩

/-- A registration input the schema accepts, with a mixed-case email. -/
def regInputOk : RegistrationInput :=
  ⟨"alice_1", "Alice@Example.com", "Aa1@aaaa", "Aa1@aaaa"⟩

/-- A sample authenticated user. -/
def sampleUser : UserInfo :=
  ⟨1, "alice", "alice@example.com", true, "2024-01-01"⟩

/-- A fully authenticated client session with the three storage keys
populated. -/
def authedClient : ClientState :=
  ⟨⟨true, some sampleUser, some "acc", some "ref", false⟩,
    ⟨some "acc", some "ref", some "userjson"⟩⟩

/-- A server response reporting an expired token, as the axios interceptor
receives it. -/
def expiredTokenError : AxiosError :=
  ⟨"Request failed with status code 401", some ⟨401, "token_expired"⟩⟩

/-- A storage holding only an access token: one credential present, the
other two keys absent. -/
def partialStorage : AuthStorage :=
  ⟨some "tok", none, none⟩

/-- A sample consumption payload for the backend model. -/
def samplePayload : CreatePayload :=
  ⟨2024, 5, 10, CType.water, 42, some 999⟩

/-- A sample backend record owned by tenant 1. -/
def sampleRecord : BackendRecord :=
  ⟨0, 1, 2024, 5, 10, CType.water, 42, 0⟩

/-! ## Theorems -/

/-- C1: the month-over-month change of the analytics cards — with a
non-zero previous total the change is `(current - previous) / previous *
100` (so 150 against 100 renders as a 50.0% increase and 50 against 100 as
a 50.0% decrease), with a zero previous total and a positive current total
it is 100, and with both totals zero the card shows the text No change. -/
theorem c1_percentage_change_cards (c p : ℚ) :
    (p ≠ 0 → calculatePercentageChange c p = (c - p) / p * 100) ∧
    (p = 0 → 0 < c → calculatePercentageChange c p = 100) ∧
    (c = 0 → p = 0 → currentMonthCard c p = .noChange) ∧
    currentMonthCard 150 100 = .increase 50 ∧
    currentMonthCard 50 100 = .decrease 50 := by
  refine ⟨fun h => ?_, fun h hc => ?_, fun hc hp => ?_, ?_, ?_⟩
  · simp [calculatePercentageChange, h]
  · simp [calculatePercentageChange, h, hc]
  · simp [currentMonthCard, calculatePercentageChange, hp, hc]
  · norm_num [currentMonthCard, calculatePercentageChange]
  · norm_num [currentMonthCard, calculatePercentageChange]

/-- Witness for C1 at the concrete pairs named by the claim. -/
theorem c1_percentage_change_cards_witness :
    calculatePercentageChange 150 100 = 50 ∧
    calculatePercentageChange 50 0 = 100 ∧
    currentMonthCard 0 0 = .noChange := by
  refine ⟨?_, ?_, ?_⟩
  · rw [(c1_percentage_change_cards 150 100).1 (by norm_num)]; norm_num
  · exact (c1_percentage_change_cards 50 0).2.1 rfl (by norm_num)
  · exact (c1_percentage_change_cards 0 0).2.2.1 rfl rfl

/-- C2: the consumption schema rejects a non-positive value, a date
strictly after the end of the current day, a missing or invalid type, and
a note longer than 500 characters; and it accepts an input with a positive
value, a non-future date, a valid type and a note within the bound. -/
theorem c2_consumption_validation (endOfToday : Int) (f : ConsumptionFormInput) :
    (∀ v, f.value = some v → v ≤ 0 → consumptionAccepts endOfToday f = false) ∧
    (∀ d, f.date = some d → endOfToday < d → consumptionAccepts endOfToday f = false) ∧
    (f.ctype = none → consumptionAccepts endOfToday f = false) ∧
    (∀ n, f.notes = some n → 500 < utf16Len n → consumptionAccepts endOfToday f = false) ∧
    (∀ v d, f.value = some v → 0 < v → f.date = some d → d ≤ endOfToday →
      f.ctype.isSome = true → (∀ n, f.notes = some n → utf16Len n ≤ 500) →
      consumptionAccepts endOfToday f = true) := by
  obtain ⟨fd, fv, ft, fn⟩ := f
  refine ⟨?_, ?_, ?_, ?_, ?_⟩
  · rintro v rfl hle
    simp [consumptionAccepts, not_lt.mpr hle]
  · rintro d rfl hlt
    simp [consumptionAccepts, not_le.mpr hlt]
  · rintro rfl
    simp [consumptionAccepts]
  · rintro n rfl hlen
    simp [consumptionAccepts, not_le.mpr hlen]
  · rintro v d rfl hv rfl hd ht hn
    cases fn with
    | none => simp_all [consumptionAccepts]
    | some n => simp_all [consumptionAccepts]

/-- Witness for C2: a concrete accepted input and a concrete rejected one
(value zero). -/
theorem c2_consumption_validation_witness :
    consumptionAccepts 1000 ⟨some 500, some 2, some CType.water, none⟩ = true ∧
    consumptionAccepts 1000 ⟨some 500, some 0, some CType.water, none⟩ = false := by
  constructor
  · exact (c2_consumption_validation 1000 ⟨some 500, some 2, some CType.water, none⟩).2.2.2.2
      2 500 rfl (by norm_num) rfl (by norm_num) rfl (fun n h => by cases h)
  · exact (c2_consumption_validation 1000 ⟨some 500, some 0, some CType.water, none⟩).1
      0 rfl le_rfl

/-- Every character occupies at least one UTF-16 unit. -/
theorem one_le_utf16Weight (c : Char) : 1 ≤ utf16Weight c := by
  unfold utf16Weight
  split <;> omega

/-- A string has UTF-16 length zero exactly when it has no characters. -/
theorem utf16Len_eq_zero_iff (s : String) : utf16Len s = 0 ↔ s.data = [] := by
  rcases hd : s.data with _ | ⟨c, cs⟩
  · simp [utf16Len, hd]
  · simp only [utf16Len, hd, List.map_cons, List.sum_cons]
    have := one_le_utf16Weight c
    constructor
    · intro h; exfalso; omega
    · intro h; exact absurd h (by simp)

/-- A score of five means every requirement test passes. -/
theorem strength_score_five_iff (p : String) :
    (strengthRequirements.filter (fun r => r.1 p)).length = 5 ↔
      ∀ r ∈ strengthRequirements, r.1 p = true := by
  constructor
  · intro h
    have heq : strengthRequirements.filter (fun r => r.1 p) = strengthRequirements :=
      (List.filter_sublist _).eq_of_length (by rw [h]; rfl)
    intro r hr
    have hr' : r ∈ strengthRequirements.filter (fun r => r.1 p) := by
      rw [heq]; exact hr
    exact (List.mem_filter.mp hr').2
  · intro h
    rw [List.filter_eq_self.mpr h]
    rfl

/-- When every requirement passes, the unmet list is empty. -/
theorem strength_unmet_nil (p : String)
    (h : ∀ r ∈ strengthRequirements, r.1 p = true) :
    strengthRequirements.filter (fun r => !r.1 p) = [] := by
  simp only [List.filter_eq_nil_iff]
  intro r hr
  simp [h r hr]

/-- C10: the strength classifier returns, as its requirements list,
exactly the texts of the requirements the password fails (in source
order), and the level is strong exactly when every requirement is met. -/
theorem c10_password_strength_classifier (p : String) :
    (calculatePasswordStrength p).requirements =
      (strengthRequirements.filter (fun r => !r.1 p)).map (·.2) ∧
    ((calculatePasswordStrength p).level = PasswordLevel.strong ↔
      ∀ r ∈ strengthRequirements, r.1 p = true) := by
  have hle : (strengthRequirements.filter (fun r => r.1 p)).length ≤ 5 :=
    le_trans (List.length_filter_le _ _) (by rfl)
  simp only [calculatePasswordStrength]
  split_ifs with h1 h2 h3 h4 h5
  · simp only [Bool.or_eq_true, decide_eq_true_eq] at h1
    refine ⟨rfl, ⟨fun h => absurd h (by simp), fun hall => ?_⟩⟩
    exfalso
    have hfive := (strength_score_five_iff p).mpr hall
    rcases h1 with h | h
    · omega
    · have hd : p.data = [] := (utf16Len_eq_zero_iff p).mp h
      have hzero : (strengthRequirements.filter (fun r => r.1 p)).length = 0 := by
        simp [strengthRequirements, maxNonTermRun, hd]
      omega
  · simp only [decide_eq_true_eq] at h2
    exact ⟨rfl, ⟨fun h => absurd h (by simp),
      fun hall => absurd ((strength_score_five_iff p).mpr hall) (by omega)⟩⟩
  · simp only [decide_eq_true_eq] at h3
    exact ⟨rfl, ⟨fun h => absurd h (by simp),
      fun hall => absurd ((strength_score_five_iff p).mpr hall) (by omega)⟩⟩
  · simp only [decide_eq_true_eq] at h4
    exact ⟨rfl, ⟨fun h => absurd h (by simp),
      fun hall => absurd ((strength_score_five_iff p).mpr hall) (by omega)⟩⟩
  · simp only [decide_eq_true_eq] at h5
    exact ⟨rfl, ⟨fun h => absurd h (by simp),
      fun hall => absurd ((strength_score_five_iff p).mpr hall) (by omega)⟩⟩
  · have hfive : (strengthRequirements.filter (fun r => r.1 p)).length = 5 := by
      simp only [Bool.or_eq_true, decide_eq_true_eq, not_or] at h1
      simp only [decide_eq_true_eq] at h2 h3 h4 h5
      omega
    have hall := (strength_score_five_iff p).mp hfive
    refine ⟨?_, ⟨fun _ => hall, fun _ => rfl⟩⟩
    rw [strength_unmet_nil p hall]
    rfl

/-- Witness for C10: a concrete strong password and a concrete weak one. -/
theorem c10_password_strength_classifier_witness :
    (calculatePasswordStrength "Aa1@aaaa").level = PasswordLevel.strong ∧
    (calculatePasswordStrength "aaaa").requirements =
      (strengthRequirements.filter (fun r => !r.1 "aaaa")).map (·.2) := by
  constructor
  · exact (c10_password_strength_classifier "Aa1@aaaa").2.mpr (by decide)
  · exact (c10_password_strength_classifier "aaaa").1

/-- A string passing the email format check is non-empty. -/
theorem zodEmailValid_ne_nil (e : String) (h : zodEmailValid e = true) :
    e.data ≠ [] := by
  intro hnil
  have h2 : zodEmailValid e = false := by
    unfold zodEmailValid
    rw [hnil]
    rfl
  exact Bool.noConfusion (h.symm.trans h2)

/-- The registration parse succeeds exactly when the combined field checks
pass. -/
theorem registrationAccepts_eq (i : RegistrationInput) :
    registrationAccepts i =
      (usernameFieldOk i.username && emailFieldOk i.email &&
       passwordFieldOk i.password && decide (1 ≤ utf16Len i.confirm_password) &&
       decide (i.password = i.confirm_password)) := by
  unfold registrationAccepts registrationParse
  split
  · next h => simp only [Option.isSome_some]; exact h.symm
  · next h => simp only [Option.isSome_none]; exact (Bool.eq_false_iff.mpr h).symm

/-- C6, counterexample: an input whose username, email, password content
(length 8, a lowercase letter, an uppercase letter, a digit, a special
character) and confirmation all satisfy the conditions of the claim, yet
the schema rejects it — the password pattern additionally constrains the
first character to the class of letters, digits and specials, and this
password starts with a hash sign. -/
theorem c6_registration_schema_counterexample :
    registrationClaimAccepts regInputHashPwd = true ∧
    registrationAccepts regInputHashPwd = false := by
  constructor <;> decide

/-- C6 as amended: the schema accepts exactly the inputs with a valid
username (3-30 characters over letters, digits, underscores), a valid
email of at most 100 characters, a password of 8-128 characters passing
the password pattern (its four character classes must occur before any
line terminator and its first character must be a letter, digit or one of
the specials), and a confirmation equal to the password; on success the
returned email is lowercased. -/
theorem c6_registration_schema_amended (i : RegistrationInput) :
    (registrationAccepts i = true ↔
      (3 ≤ utf16Len i.username ∧ utf16Len i.username ≤ 30 ∧
       i.username.data.all isUsernameChar = true ∧
       zodEmailValid i.email = true ∧ utf16Len i.email ≤ 100 ∧
       8 ≤ utf16Len i.password ∧ utf16Len i.password ≤ 128 ∧
       passwordRegexTest i.password = true ∧
       i.password = i.confirm_password)) ∧
    (∀ o, registrationParse i = some o → o.email = lowerStr i.email) := by
  constructor
  · rw [registrationAccepts_eq]
    simp only [Bool.and_eq_true, decide_eq_true_eq, usernameFieldOk,
      emailFieldOk, passwordFieldOk, and_assoc]
    constructor
    · rintro ⟨h1, h3, h30, hne, hall, he1, hev, he100, hp1, hp8, hp128,
        hreg, hc1, heq⟩
      exact ⟨h3, h30, hall, hev, he100, hp8, hp128, hreg, heq⟩
    · rintro ⟨h3, h30, hall, hev, he100, hp8, hp128, hreg, heq⟩
      have hne : i.username.data ≠ [] := by
        intro hnil
        have := (utf16Len_eq_zero_iff i.username).mpr hnil
        omega
      have hene : i.email.data ≠ [] := zodEmailValid_ne_nil _ hev
      have he1 : 1 ≤ utf16Len i.email := by
        rcases Nat.eq_zero_or_pos (utf16Len i.email) with h0 | hpos
        · exact absurd ((utf16Len_eq_zero_iff _).mp h0) hene
        · exact hpos
      have hc1 : 1 ≤ utf16Len i.confirm_password := by
        rw [← heq]; omega
      exact ⟨by omega, h3, h30, hne, hall, he1, hev, he100, by omega, hp8,
        hp128, hreg, hc1, heq⟩
  · intro o ho
    unfold registrationParse at ho
    split at ho
    · cases ho; rfl
    · cases ho

/-- Witness for C6: the accepted concrete input of the amended claim, and
the email-lowercasing on it. -/
theorem c6_registration_schema_witness :
    registrationAccepts regInputOk = true ∧
    RegistrationOutput.email
      ⟨"alice_1", "alice@example.com", "Aa1@aaaa", "Aa1@aaaa"⟩ =
      lowerStr regInputOk.email := by
  constructor
  · exact (c6_registration_schema_amended regInputOk).1.mpr (by decide)
  · exact (c6_registration_schema_amended regInputOk).2
      ⟨"alice_1", "alice@example.com", "Aa1@aaaa", "Aa1@aaaa"⟩ (by decide)

/-- C3, counterexample: in a fully authenticated session, a server
response reporting an expired token passes through the response
interceptor without a transition to the unauthenticated state and without
the stored tokens being discarded — the interceptor only transforms the
error object. -/
theorem c3_session_state_machine_counterexample :
    ¬ ((onResponseError expiredTokenError authedClient).2.auth.isAuthenticated = false ∧
       (onResponseError expiredTokenError authedClient).2.storage = ⟨none, none, none⟩) := by
  decide

/-- C3 as amended: logout removes all three persisted items and installs
the unauthenticated state; however no forced transition happens on an
expired or invalid-signature server response — the response interceptor
maps any error to its message, status and data and leaves the
authentication state and the stored tokens exactly as they were. -/
theorem c3_session_state_machine_amended (cs : ClientState) (e : AxiosError) :
    logout cs = ⟨signedOutAuth, ⟨none, none, none⟩⟩ ∧
    (onResponseError e cs).2 = cs ∧
    (onResponseError e cs).1 =
      ⟨e.message, e.response.map (·.status), e.response.map (·.data)⟩ := by
  exact ⟨rfl, rfl, rfl⟩

/-- C8: in every session state, `refreshAccessToken` returns false,
leaves the state and the persisted tokens unchanged, and performs no
backend call at all. -/
theorem c8_refresh_never_exchanges (cs : ClientState) :
    refreshAccessToken cs = (false, cs, []) := rfl

/-- C9, counterexample: initialization over a storage holding only an
access token ends unauthenticated yet leaves that access token persisted,
so a partially-authenticated persisted state does survive initialization
(the claim asserts it never does). -/
theorem c9_session_restore_counterexample :
    (loadAuthState (fun _ => none) partialStorage).1.isAuthenticated = false ∧
    (loadAuthState (fun _ => none) partialStorage).2.access = some "tok" := by
  decide

/-- C9 as amended: initialization ends authenticated exactly when all
three items are present (non-empty) and the user info parses; a parse
failure removes all three keys and ends unauthenticated; but when some
item is missing the state is unauthenticated while whatever was stored is
left in place. -/
theorem c9_session_restore_amended (pu : String → Option UserInfo)
    (st : AuthStorage) :
    ((loadAuthState pu st).1.isAuthenticated = true ↔
      (truthyS st.access = true ∧ truthyS st.refresh = true ∧
        ∃ uStr, st.userInfo = some uStr ∧ uStr ≠ "" ∧ (pu uStr).isSome = true)) ∧
    (∀ uStr, st.userInfo = some uStr → truthyS st.access = true →
      truthyS st.refresh = true → uStr ≠ "" → pu uStr = none →
      loadAuthState pu st = (signedOutAuth, ⟨none, none, none⟩)) ∧
    ((truthyS st.access && truthyS st.refresh && truthyS st.userInfo) = false →
      (loadAuthState pu st).2 = st ∧ (loadAuthState pu st).1 = signedOutAuth) := by
  obtain ⟨sa, sr, su⟩ := st
  refine ⟨?_, ?_, ?_⟩
  · unfold loadAuthState
    split
    · next hcond =>
      simp only [Bool.and_eq_true] at hcond
      obtain ⟨⟨ha, hr⟩, hu⟩ := hcond
      cases su with
      | none => exact absurd hu (by simp [truthyS])
      | some uStr =>
        cases hp : pu uStr with
        | some u =>
          simp only [hp]
          constructor
          · intro _
            refine ⟨ha, hr, uStr, rfl, ?_, by rw [hp]; rfl⟩
            simpa [truthyS] using hu
          · intro _; trivial
        | none =>
          simp only [hp, signedOutAuth]
          constructor
          · intro hfalse; exact absurd hfalse (by simp)
          · rintro ⟨-, -, uStr2, hu2, -, hsome⟩
            rw [show uStr2 = uStr from by injection hu2 with h; exact h.symm] at hsome
            rw [hp] at hsome
            exact absurd hsome (by simp)
    · next hcond =>
      simp only [signedOutAuth]
      constructor
      · intro hfalse; exact absurd hfalse (by simp)
      · rintro ⟨ha, hr, uStr, hu, hne, -⟩
        exact absurd (by
          simp only [Bool.and_eq_true]
          exact ⟨⟨ha, hr⟩, by simp [truthyS, hu, hne]⟩) hcond
  · rintro uStr rfl ha hr hne hp
    unfold loadAuthState
    rw [if_pos (by
      simp only [Bool.and_eq_true]
      exact ⟨⟨ha, hr⟩, by simp [truthyS, hne]⟩)]
    simp [hp, clearAuthStorage]
  · intro hcond
    unfold loadAuthState
    rw [if_neg (by simp [hcond])]
    exact ⟨rfl, rfl⟩

/-- Witness for C9: a full storage whose user info fails to parse is
wiped and ends unauthenticated. -/
theorem c9_session_restore_witness :
    loadAuthState (fun _ => none) ⟨some "a", some "r", some "u"⟩ =
      (signedOutAuth, ⟨none, none, none⟩) := by
  exact (c9_session_restore_amended (fun _ => none)
    ⟨some "a", some "r", some "u"⟩).2.1 "u" rfl (by decide) (by decide)
    (by decide) rfl

/-- Every element produced by one conditional query append carries the
given key and renders a number. -/
theorem mem_pageParam (key : String) (po : Option Nat) (kv : String × String)
    (h : kv ∈ pageParam key po) :
    kv.1 = key ∧ ∃ n : Nat, kv.2 = toString n := by
  cases po with
  | none => simp [pageParam] at h
  | some p =>
    simp only [pageParam] at h
    split at h
    · rw [List.mem_singleton] at h
      subst h
      exact ⟨rfl, p, rfl⟩
    · simp at h

/-- C7: the protected consumption operations carry the token exactly as
the Authorization header value Bearer-space-token; the create body is the
caller payload (a type with no token field), the create query is empty,
the list body is empty, and every list query parameter is a page or
per-page number. -/
theorem c7_bearer_header_placement (t : String) (data : ConsumptionCreateBody)
    (params : ConsumptionListParams) :
    (consumptionCreateRequest data t).headers =
      [("Authorization", "Bearer " ++ t)] ∧
    (consumptionCreateRequest data t).queryParams = [] ∧
    (consumptionCreateRequest data t).body = some data ∧
    (consumptionListRequest params t).headers =
      [("Authorization", "Bearer " ++ t)] ∧
    (consumptionListRequest params t).body = none ∧
    (∀ kv ∈ (consumptionListRequest params t).queryParams,
      (kv.1 = "page" ∨ kv.1 = "per_page") ∧ ∃ n : Nat, kv.2 = toString n) := by
  refine ⟨rfl, rfl, rfl, rfl, rfl, ?_⟩
  intro kv hkv
  simp only [consumptionListRequest, List.mem_append] at hkv
  rcases hkv with h | h
  · have := mem_pageParam "page" params.page kv h
    exact ⟨Or.inl this.1, this.2⟩
  · have := mem_pageParam "per_page" params.per_page kv h
    exact ⟨Or.inr this.1, this.2⟩

/-- Witness for C7: the concrete header of a create request and the shape
of a concrete list query parameter. -/
theorem c7_bearer_header_placement_witness :
    (consumptionCreateRequest ⟨"2024-05-10", 42, CType.water, none⟩ "tok123").headers =
      [("Authorization", "Bearer tok123")] ∧
    ((("page", "1") : String × String).1 = "page" ∨
      (("page", "1") : String × String).1 = "per_page") := by
  constructor
  · exact (c7_bearer_header_placement "tok123" ⟨"2024-05-10", 42, CType.water, none⟩
      ⟨some 1, none⟩).1
  · exact ((c7_bearer_header_placement "tok123" ⟨"2024-05-10", 42, CType.water, none⟩
      ⟨some 1, none⟩).2.2.2.2.2 ("page", "1") (by decide)).1

/-- Every record a successful list query returns belongs to the tenant of
the context: the filter on the owner column survives ordering and
pagination. -/
theorem listRecords_owner (tenant page sz : Nat) (db out : List BackendRecord)
    (h : listRecords tenant page sz db = some out) :
    ∀ r ∈ out, r.owner = tenant := by
  intro r hr
  unfold listRecords at h
  split at h
  · exact absurd h (by simp)
  · injection h with h
    subst h
    have h1 : r ∈ (db.filter (fun r => decide (r.owner = tenant))).mergeSort
        newestFirst :=
      List.mem_of_mem_drop (List.mem_of_mem_take hr)
    have h2 : r ∈ db.filter (fun r => decide (r.owner = tenant)) :=
      (List.mergeSort_perm _ _).mem_iff.mp h1
    exact of_decide_eq_true (List.mem_filter.mp h2).2

/-- C4: tenant isolation — a created record is owned by the tenant of the
context even when the payload carries a crafted owner; every record a list
query returns belongs to the authenticated tenant, whatever page
parameters are supplied; hence, for distinct tenants, a record just
created by one tenant is never among the records returned to the other. -/
theorem c4_tenant_isolation (db : List BackendRecord) (a b : Nat)
    (p : CreatePayload) (page sz : Nat) :
    (createRecord a p db).1.owner = a ∧
    (∀ out, listRecords b page sz db = some out → ∀ r ∈ out, r.owner = b) ∧
    (a ≠ b → ∀ out, listRecords b page sz (createRecord a p db).2 = some out →
      (createRecord a p db).1 ∉ out) := by
  refine ⟨rfl, fun out h => listRecords_owner b page sz db out h, ?_⟩
  intro hne out h hmem
  have hb := listRecords_owner b page sz _ out h _ hmem
  exact hne ((rfl : a = (createRecord a p db).1.owner).trans hb)

/-- Witness for C4: with an empty database, tenant 1 creating a record
(with a crafted owner of 999 in the payload) yields owner 1, and tenant 2
then lists nothing. -/
theorem c4_tenant_isolation_witness :
    (createRecord 1 samplePayload []).1.owner = 1 ∧
    (createRecord 1 samplePayload []).1 ∉ ([] : List BackendRecord) := by
  constructor
  · exact (c4_tenant_isolation [] 1 2 samplePayload 1 10).1
  · exact (c4_tenant_isolation [] 1 2 samplePayload 1 10).2.2 (by decide) []
      (by simp [listRecords, createRecord, samplePayload])

/-- Splitting a sum of mapped values along a Boolean filter. -/
theorem sum_map_filter_split {α : Type} (l : List α) (q : α → Bool)
    (val : α → ℚ) :
    ((l.filter q).map val).sum + ((l.filter (fun a => !q a)).map val).sum
      = (l.map val).sum := by
  induction l with
  | nil => simp
  | cons x xs ih =>
    cases hq : q x with
    | true =>
      simp [List.filter_cons, hq]
      linarith [ih]
    | false =>
      simp [List.filter_cons, hq]
      linarith [ih]

/-- Grouping conservation: summing the fibers of a key function over a
covering list of distinct keys reproduces the total sum. -/
theorem sum_fibers {α κ : Type} [DecidableEq κ] (key : α → κ) (val : α → ℚ)
    (ks : List κ) (l : List α) (hnd : ks.Nodup)
    (hcov : ∀ a ∈ l, key a ∈ ks) :
    (ks.map
      (fun k => ((l.filter (fun a => decide (key a = k))).map val).sum)).sum
      = (l.map val).sum := by
  induction ks generalizing l with
  | nil =>
    have hl : l = [] := List.eq_nil_iff_forall_not_mem.mpr
      (fun a ha => List.not_mem_nil (key a) (hcov a ha))
    simp [hl]
  | cons k ks ih =>
    simp only [List.map_cons, List.sum_cons]
    have htail : ∀ k2 ∈ ks,
        (l.filter (fun a => decide (key a = k2)))
          = ((l.filter (fun a => !decide (key a = k))).filter
              (fun a => decide (key a = k2))) := by
      intro k2 hk2
      have hkne : k ≠ k2 := fun he => (List.nodup_cons.mp hnd).1 (he ▸ hk2)
      rw [List.filter_filter]
      apply List.filter_congr
      intro a _
      by_cases hka : key a = k2
      · have hnk : ¬ (key a = k) := fun hh => hkne (hh.symm.trans hka)
        have hnk2 : ¬ (k2 = k) := fun he => hkne he.symm
        simp [hka, hnk, hnk2]
      · simp [hka]
    have hmapeq :
        (ks.map (fun k2 =>
          ((l.filter (fun a => decide (key a = k2))).map val).sum))
        = (ks.map (fun k2 =>
          (((l.filter (fun a => !decide (key a = k))).filter
            (fun a => decide (key a = k2))).map val).sum)) := by
      apply List.map_congr_left
      intro k2 hk2
      rw [htail k2 hk2]
    rw [hmapeq]
    rw [ih (l.filter (fun a => !decide (key a = k)))
      (List.nodup_cons.mp hnd).2 ?_]
    · exact sum_map_filter_split l (fun a => decide (key a = k)) val
    · intro a ha
      have hal := List.mem_filter.mp ha
      have := hcov a hal.1
      rcases List.mem_cons.mp this with he | hm
      · exact absurd (decide_eq_true he) (by simpa using hal.2)
      · exact hm

/-- The calendar order on month buckets is transitive. -/
theorem ymLe_trans (a b c : Nat × Nat) (hab : ymLe a b) (hbc : ymLe b c) :
    ymLe a c := by
  simp only [ymLe, decide_eq_true_eq] at *
  omega

/-- The calendar order on month buckets is total. -/
theorem ymLe_total (a b : Nat × Nat) : ymLe a b || ymLe b a := by
  simp only [ymLe, Bool.or_eq_true, decide_eq_true_eq]
  omega

/-- Summing a filtered fiber over every month of the record set
reproduces the total over the filtered records. -/
theorem sum_buckets_filtered (records : List BackendRecord)
    (q : BackendRecord → Bool) :
    ((monthKeys records).map
        (fun k => (((records.filter q).filter
          (fun r => decide (ymKey r = k))).map (fun r => r.value)).sum)).sum
      = ((records.filter q).map (fun r => r.value)).sum := by
  rw [monthKeys]
  rw [((List.mergeSort_perm ((records.map ymKey).dedup) ymLe).map
    (fun k => (((records.filter q).filter
      (fun r => decide (ymKey r = k))).map (fun r => r.value)).sum)).sum_eq]
  exact sum_fibers ymKey (fun r => r.value) ((records.map ymKey).dedup)
    (records.filter q) ((records.map ymKey).nodup_dedup)
    (fun a ha => List.mem_dedup.mpr
      (List.mem_map_of_mem ymKey (List.mem_filter.mp ha).1))

/-- Per-type conservation across the monthly buckets. -/
theorem monthly_type_total (records : List BackendRecord) (t : CType) :
    ((monthKeys records).map
        (fun k => typeSum t (records.filter (fun r => decide (ymKey r = k))))).sum
      = typeSum t records := by
  have hcomm : (fun k => typeSum t (records.filter (fun r => decide (ymKey r = k))))
      = (fun k => (((records.filter (fun r => decide (r.ctype = t))).filter
          (fun r => decide (ymKey r = k))).map (fun r => r.value)).sum) := by
    funext k
    unfold typeSum
    rw [List.filter_filter, List.filter_filter]
    have hpq : (fun r : BackendRecord =>
        decide (r.ctype = t) && decide (ymKey r = k))
        = (fun r => decide (ymKey r = k) && decide (r.ctype = t)) := by
      funext r
      rw [Bool.and_comm]
    rw [hpq]
  rw [hcomm]
  exact sum_buckets_filtered records (fun r => decide (r.ctype = t))

/-- Within any record set, the total of the values is the sum of the
three per-type subtotals. -/
theorem sum_value_eq_typeSum (rs : List BackendRecord) :
    (rs.map (fun r => r.value)).sum
      = typeSum .electricity rs + typeSum .water rs + typeSum .gas rs := by
  induction rs with
  | nil => simp [typeSum]
  | cons r rs ih =>
    cases hct : r.ctype <;>
      simp only [typeSum, List.filter_cons, hct, List.map_cons, List.sum_cons,
        decide_eq_true_eq, reduceCtorEq, decide_True, decide_False, if_true,
        if_false, ite_true, ite_false, reduceIte] <;>
      simp only [typeSum] at ih <;>
      linarith [ih]

/-- C5: aggregation conservation — for every tenant record set, the
monthly bucket totals sum to the total consumption, each per-type column
of the buckets sums to the corresponding entry of the per-type totals,
the buckets are sorted ascending by calendar month, and every bucket
carries the three explicit per-type subtotals, which add up to the bucket
total. -/
theorem c5_aggregation_conservation (tenant : Nat) (db : List BackendRecord)
    (now : Nat × Nat) :
    ((summarize tenant db now).monthly_data.map (·.total)).sum
        = (summarize tenant db now).total_consumption ∧
    ((summarize tenant db now).monthly_data.map (·.electricity)).sum
        = (summarize tenant db now).by_electricity ∧
    ((summarize tenant db now).monthly_data.map (·.water)).sum
        = (summarize tenant db now).by_water ∧
    ((summarize tenant db now).monthly_data.map (·.gas)).sum
        = (summarize tenant db now).by_gas ∧
    List.Pairwise (fun x y => ymLe x y = true)
      ((summarize tenant db now).monthly_data.map (·.ym)) ∧
    (∀ bkt ∈ (summarize tenant db now).monthly_data,
      bkt.total = bkt.electricity + bkt.water + bkt.gas) := by
  refine ⟨?_, ?_, ?_, ?_, ?_, ?_⟩
  · show (((monthKeys (db.filter (fun r => decide (r.owner = tenant)))).map
        (bucketFor (db.filter (fun r => decide (r.owner = tenant))))).map
          (·.total)).sum
      = ((db.filter (fun r => decide (r.owner = tenant))).map
          (fun r => r.value)).sum
    rw [List.map_map]
    show ((monthKeys (db.filter (fun r => decide (r.owner = tenant)))).map
        (fun k => (((db.filter (fun r => decide (r.owner = tenant))).filter
          (fun r => decide (ymKey r = k))).map (fun r => r.value)).sum)).sum
      = ((db.filter (fun r => decide (r.owner = tenant))).map
          (fun r => r.value)).sum
    rw [monthKeys]
    rw [((List.mergeSort_perm _ ymLe).map _).sum_eq]
    exact sum_fibers ymKey (fun r => r.value) _ _
      (List.nodup_dedup _)
      (fun a ha => List.mem_dedup.mpr (List.mem_map_of_mem ymKey ha))
  · show (((monthKeys (db.filter (fun r => decide (r.owner = tenant)))).map
        (bucketFor (db.filter (fun r => decide (r.owner = tenant))))).map
          (·.electricity)).sum
      = typeSum .electricity (db.filter (fun r => decide (r.owner = tenant)))
    rw [List.map_map]
    exact monthly_type_total (db.filter (fun r => decide (r.owner = tenant)))
      CType.electricity
  · show (((monthKeys (db.filter (fun r => decide (r.owner = tenant)))).map
        (bucketFor (db.filter (fun r => decide (r.owner = tenant))))).map
          (·.water)).sum
      = typeSum .water (db.filter (fun r => decide (r.owner = tenant)))
    rw [List.map_map]
    exact monthly_type_total (db.filter (fun r => decide (r.owner = tenant)))
      CType.water
  · show (((monthKeys (db.filter (fun r => decide (r.owner = tenant)))).map
        (bucketFor (db.filter (fun r => decide (r.owner = tenant))))).map
          (·.gas)).sum
      = typeSum .gas (db.filter (fun r => decide (r.owner = tenant)))
    rw [List.map_map]
    exact monthly_type_total (db.filter (fun r => decide (r.owner = tenant)))
      CType.gas
  · show List.Pairwise (fun x y => ymLe x y = true)
      (((monthKeys (db.filter (fun r => decide (r.owner = tenant)))).map
        (bucketFor (db.filter (fun r => decide (r.owner = tenant))))).map
          (·.ym))
    rw [List.map_map]
    have hid : ((·.ym) ∘ bucketFor (db.filter (fun r => decide (r.owner = tenant))))
        = (id : Nat × Nat → Nat × Nat) := rfl
    rw [hid, List.map_id, monthKeys]
    exact List.sorted_mergeSort ymLe_trans ymLe_total _
  · intro bkt hb
    have hb' : bkt ∈ (monthKeys (db.filter (fun r => decide (r.owner = tenant)))).map
        (bucketFor (db.filter (fun r => decide (r.owner = tenant)))) := hb
    rw [List.mem_map] at hb'
    obtain ⟨k, -, rfl⟩ := hb'
    exact sum_value_eq_typeSum _

/-- Witness for C5: the single bucket of a one-record database carries the
three subtotals summing to its total. -/
theorem c5_aggregation_conservation_witness :
    (bucketFor [sampleRecord] (2024, 5)).total
      = (bucketFor [sampleRecord] (2024, 5)).electricity
        + (bucketFor [sampleRecord] (2024, 5)).water
        + (bucketFor [sampleRecord] (2024, 5)).gas := by
  refine (c5_aggregation_conservation 1 [sampleRecord] (2024, 6)).2.2.2.2.2
    (bucketFor [sampleRecord] (2024, 5)) ?_
  show bucketFor [sampleRecord] (2024, 5) ∈
    (monthKeys ([sampleRecord].filter (fun r => decide (r.owner = 1)))).map
      (bucketFor ([sampleRecord].filter (fun r => decide (r.owner = 1))))
  have h1 : [sampleRecord].filter (fun r => decide (r.owner = 1)) = [sampleRecord] := rfl
  rw [h1]
  have h2 : monthKeys [sampleRecord] = [(2024, 5)] := by
    simp [monthKeys, ymKey, sampleRecord]
  rw [h2]
  simp

end ConsumerApp
